import Mathlib

/-!
Verification of the pillowcase image service core: the image store resolver
(`PILOpen`), its scoped handle teardown (`PILOpen.__exit__`), the rotation and
resize transforms, the unique-identifier generator, and the upload handler.

The filesystem is modelled as a list of named files in filesystem-listing
order; the content of a file either decodes to an in-memory raster (`some img`) or
fails to decode (`none`, covering a file that is unreadable as an image or
whose decode errors out).  Rasters are modelled as dimensions plus a pixel
function; two rasters are "the same" when they have equal dimensions and equal
pixels at every in-bounds coordinate.
-/

set_option autoImplicit false

namespace Pillowcase

/-- An in-memory decoded raster: width, height and a pixel lookup function.
Pixels outside the `width × height` rectangle are irrelevant. -/
structure Img where
  width : Nat
  height : Nat
  px : Nat → Nat → Nat

/-- Raster equality: same dimensions and same pixel values in bounds. -/
def Img.eqv (a b : Img) : Prop :=
  a.width = b.width ∧ a.height = b.height ∧
    ∀ x y, x < a.width → y < a.height → a.px x y = b.px x y

/-- Tests whether `p` is a leading substring of `s` (Python `str.startswith(p)`, and the set
of names matched by the glob pattern `p*` for a pattern free of glob
metacharacters). -/
def strStarts (s p : String) : Bool :=
  p.data.isPrefixOf s.data

/-- Characters of a filename before its last dot
(Python `filename[:filename.rindex('.')]`, defined on filenames that
contain a dot, which is the only way the source calls it). -/
def stripExtChars (cs : List Char) : List Char :=
  (((cs.reverse.dropWhile (fun c => c != '.')).drop 1)).reverse

/-- Filename with its last extension removed
(`filename[:filename.rindex('.')]`). -/
def stripLastExt (s : String) : String :=
  String.mk (stripExtChars s.data)

/-- A file in the storage directory: its basename and, when it decodes as an
image, the decoded raster (`none` models content unreadable as an image or a
decode error). -/
structure FsFile where
  name : String
  content : Option Img

/-- The first file in listing order with the given exact name. -/
def findFile (dir : List FsFile) (name : String) : Option FsFile :=
  dir.find? (fun f => f.name == name)

/-- Model of `PIL.Image.open` on `directory_path/filename`, collapsing the three
caught failure modes (`FileNotFoundError`, `ValueError`,
`PIL.UnidentifiedImageError`: file absent, content unreadable, decode error)
into `none`. -/
def tryOpen (dir : List FsFile) (name : String) : Option Img :=
  match findFile dir name with
  | some f => f.content
  | none => none

/-- The `for file in pathlib.Path(directory_path).glob(f"{filename}*")` loop:
scan the directory in listing order for names starting with `base`, returning
the first candidate that decodes. -/
def fallbackScan (dir : List FsFile) (base : String) : Option Img :=
  match dir with
  | [] => none
  | f :: rest =>
    if strStarts f.name base then
      match f.content with
      | some img => some img
      | none => fallbackScan rest base
    else fallbackScan rest base

/-- Result of `PILOpen.__init__`: either a decoded image or the raised
`ImageError`. -/
inductive PILOpenResult where
  | ok (img : Img)
  | imageError
  deriving Inhabited

/-- Model of `PILOpen.__init__(directory_path, filename)`: try the exact file; on
failure strip the last extension and scan glob-style for a prefix match,
raising `ImageError` if no candidate decodes. -/
def PILOpen_init (dir : List FsFile) (filename : String) : PILOpenResult :=
  match tryOpen dir filename with
  | some img => PILOpenResult.ok img
  | none =>
    match fallbackScan dir (stripLastExt filename) with
    | some img => PILOpenResult.ok img
    | none => PILOpenResult.imageError

-- -------------------- Resolver variants for comparison --------------------

/-- First file in the list (in order) whose content decodes. -/
def firstDecodable (files : List FsFile) : Option Img :=
  match files with
  | [] => none
  | f :: rest =>
    match f.content with
    | some img => some img
    | none => firstDecodable rest

/-- Resolution algorithm as the specification words it: try the exact file
`<id>.png`; if and only if that fails, consider exactly the files whose
basename with its extension stripped *equals* the identifier, in listing
order, and return the first that decodes, else fail. -/
def claimedResolve (dir : List FsFile) (id : String) : PILOpenResult :=
  match tryOpen dir (id ++ ".png") with
  | some img => PILOpenResult.ok img
  | none =>
    match firstDecodable (dir.filter (fun f => stripLastExt f.name == id)) with
    | some img => PILOpenResult.ok img
    | none => PILOpenResult.imageError

/-- Resolution algorithm as amended: try the exact file `<id>.png`; if and
only if that fails, consider exactly the files whose name *starts with* the
identifier, in listing order, and return the first that decodes, else fail. -/
def amendedResolve (dir : List FsFile) (id : String) : PILOpenResult :=
  match tryOpen dir (id ++ ".png") with
  | some img => PILOpenResult.ok img
  | none =>
    match firstDecodable (dir.filter (fun f => strStarts f.name id)) with
    | some img => PILOpenResult.ok img
    | none => PILOpenResult.imageError

-- ------------------------- Scoped handle teardown -------------------------

/-- Kinds of exception that can reach `PILOpen.__exit__` from the body of the
`with` block. -/
inductive ExcKind where
  | valueError
  | imageError
  | other
  deriving DecidableEq

/-- A decoded image handle: whether its underlying resources are still open. -/
structure PILHandle where
  isOpen : Bool
  deriving DecidableEq

/-- Outcome of `PILOpen.__exit__`: the handle afterwards, whether the
in-flight exception was suppressed (`__exit__` returned `True`), and how many
times `close()` was invoked on the handle. -/
structure ExitOutcome where
  handle : PILHandle
  suppress : Bool
  closeCalls : Nat
  deriving DecidableEq

/-- Model of `PILOpen.__exit__(exc_type, exc_val, exc_tb)`: a `ValueError` is logged
and suppressed (and the image is *not* closed); on any other exit, normal or
exceptional, `self.image.close()` runs once and nothing is suppressed. -/
def PILOpen_exit (exc : Option ExcKind) (h : PILHandle) : ExitOutcome :=
  match exc with
  | some ExcKind.valueError => ⟨h, true, 0⟩
  | _ => ⟨⟨false⟩, false, 1⟩

-- ------------------------------ HTTP surface ------------------------------

/-- A FastAPI `HTTPException` response: status code and detail message. -/
structure HTTPException where
  status_code : Nat
  detail : String
  deriving DecidableEq

/-- Handler for `GET /image/{image_id}`: open via `PILOpen` with filename `<id>.png`; an
`ImageError` becomes a 404, a success returns the (PNG-encoded) image. -/
def get_image (dir : List FsFile) (image_id : String) : Except HTTPException Img :=
  match PILOpen_init dir (image_id ++ ".png") with
  | PILOpenResult.ok img => Except.ok img
  | PILOpenResult.imageError =>
    Except.error ⟨404, "Image with id " ++ image_id ++ " not found"⟩

-- ------------------------------- Rotation --------------------------------

/-- Model of `PIL.Image.ROTATE_90`: 90° counter-clockwise.  In screen coordinates
(y grows downward) the source pixel `(W-1-y, x)` lands at `(x, y)` of the
result, whose size is `height × width`. -/
def rot90 (i : Img) : Img :=
  ⟨i.height, i.width, fun x y => i.px (i.width - 1 - y) x⟩

/-- Model of `PIL.Image.ROTATE_180`. -/
def rot180 (i : Img) : Img :=
  ⟨i.width, i.height, fun x y => i.px (i.width - 1 - x) (i.height - 1 - y)⟩

/-- Model of `PIL.Image.ROTATE_270`: 270° counter-clockwise (= 90° clockwise). -/
def rot270 (i : Img) : Img :=
  ⟨i.height, i.width, fun x y => i.px y (i.height - 1 - x)⟩

/-- The degree normalization inside `get_rotated_image`: `degrees %= 360`,
and if the direction is not `'L'`/`'l'` then `degrees = abs(360 - degrees)`
(the underlying transpose primitive rotates counter-clockwise). -/
def rotDeg (direction : Char) (degrees : Int) : Int :=
  if direction = 'L' ∨ direction = 'l' then degrees % 360
  else |360 - degrees % 360|

/-- The rotation logic inside `get_rotated_image`: normalize the degrees,
then apply the discrete transpose for 90/180/270 and a no-op otherwise. -/
def applyRotation (direction : Char) (degrees : Int) (img : Img) : Img :=
  if rotDeg direction degrees = 90 then rot90 img
  else if rotDeg direction degrees = 180 then rot180 img
  else if rotDeg direction degrees = 270 then rot270 img
  else img

/-- Handler for `GET /image/{image_id}/rotated`: resolve, rotate, encode; `ImageError`
becomes a 404. -/
def get_rotated_image (dir : List FsFile) (image_id : String)
    (direction : Char) (degrees : Int) : Except HTTPException Img :=
  match PILOpen_init dir (image_id ++ ".png") with
  | PILOpenResult.ok img => Except.ok (applyRotation direction degrees img)
  | PILOpenResult.imageError =>
    Except.error ⟨404, "Image with id " ++ image_id ++ " not found"⟩

-- -------------------------------- Resize ---------------------------------

/-- Model of `PIL.Image.resize((w, h))`: an image of exactly the requested size
(pixel content resampled from the source). -/
def resizeImage (img : Img) (w h : Nat) : Img :=
  ⟨w, h, fun x y => img.px (x * img.width / w) (y * img.height / h)⟩

/-- Model of the Pillow helper `round_aspect(number, key)` inside `thumbnail`:
`max(min(floor(number), ceil(number), key=key), 1)`, where the Python
two-argument `min` with a key returns the first argument on ties. -/
def round_aspect (number : ℚ) (keyFloor keyCeil : ℚ) : Int :=
  max (if keyFloor ≤ keyCeil then ⌊number⌋ else ⌈number⌉) 1

/-- The target size computed by `PIL.Image.thumbnail((x, y))` for a
`w0 × h0` image (modelling the Pillow float arithmetic with rationals):
if the image already fits in the box nothing happens; otherwise keep the
aspect ratio `w0 / h0`, fixing whichever requested dimension binds and
rounding the other to the nearest integer not exceeding its bound. -/
def thumbnailSize (w0 h0 x y : Nat) : Nat × Nat :=
  if w0 ≤ x ∧ h0 ≤ y then (w0, h0)
  else
    let aspect : ℚ := (w0 : ℚ) / (h0 : ℚ)
    if aspect ≤ (x : ℚ) / (y : ℚ) then
      let number : ℚ := (y : ℚ) * aspect
      let xn : Int := round_aspect number
        |aspect - (⌊number⌋ : ℚ) / (y : ℚ)| |aspect - (⌈number⌉ : ℚ) / (y : ℚ)|
      (xn.toNat, y)
    else
      let number : ℚ := (x : ℚ) / aspect
      let kf : ℚ := if ⌊number⌋ = 0 then 0 else |aspect - (x : ℚ) / (⌊number⌋ : ℚ)|
      let kc : ℚ := if ⌈number⌉ = 0 then 0 else |aspect - (x : ℚ) / (⌈number⌉ : ℚ)|
      let yn : Int := round_aspect number kf kc
      (x, yn.toNat)

/-- Model of `image.thumbnail((x, y))`: compute the bounded size and resize in place
when it differs from the current size. -/
def thumbnailImg (img : Img) (x y : Nat) : Img :=
  let s := thumbnailSize img.width img.height x y
  if s.1 = img.width ∧ s.2 = img.height then img else resizeImage img s.1 s.2

/-- The resize logic inside `get_resized_image`: `resize` when the aspect
ratio is unlocked, `thumbnail` when it is locked (the default). -/
def applyResize (lock_aspect_ratio : Bool) (w h : Nat) (img : Img) : Img :=
  if !lock_aspect_ratio then resizeImage img w h else thumbnailImg img w h

/-- Handler for `GET /image/{image_id}/resized`: resolve, resize, encode; `ImageError`
becomes a 404. -/
def get_resized_image (dir : List FsFile) (image_id : String)
    (lock_aspect_ratio : Bool) (w h : Nat) : Except HTTPException Img :=
  match PILOpen_init dir (image_id ++ ".png") with
  | PILOpenResult.ok img => Except.ok (applyResize lock_aspect_ratio w h img)
  | PILOpenResult.imageError =>
    Except.error ⟨404, "Image with id " ++ image_id ++ " not found"⟩

-- --------------------------- Identifier generator ---------------------------

/-- Tests whether the glob on `image_directory/image_id*` is non-empty: some file in
the directory has a basename starting with the string form of the identifier. -/
def collides (files : List String) (id : String) : Bool :=
  files.any (fun f => strStarts f id)

/-- Model of `get_unique_image_id(image_directory)`: repeatedly draw a fresh random
identifier (modelled by the stream `draw`, consumed at successive indices
starting from `k`) while the directory contains a prefix match for it; return
the first draw with no match.  `fuel` bounds the number of draws: `none`
models the loop still running. -/
def get_unique_image_id (files : List String) (draw : Nat → String) :
    Nat → Nat → Option String
  | _, 0 => none
  | k, fuel + 1 =>
    if collides files (draw k) then get_unique_image_id files draw (k + 1) fuel
    else some (draw k)

/-- Runs `n` sequential generations, each persisting the file of its identifier
`<id>.png` into the directory before the next generation runs; `draw step`
is the random stream used by generation `step`.  Returns the identifiers in
order together with the final directory contents. -/
def genSeq (draw : Nat → Nat → String) (fuel : Nat) :
    List String → Nat → Option (List String × List String)
  | files, 0 => some ([], files)
  | files, n + 1 =>
    match get_unique_image_id files (draw n) 0 fuel with
    | none => none
    | some id =>
      match genSeq draw fuel (files ++ [id ++ ".png"]) n with
      | none => none
      | some (ids, final) => some (id :: ids, final)

-- ------------------------------ Upload handler ------------------------------

/-- Outcome of `PIL.Image.open` on the request bytestream: a decoded image,
an unrecognized format (`PIL.UnidentifiedImageError`) or the configured
maximum pixel count exceeded (`PIL.Image.DecompressionBombWarning`). -/
inductive DecodeOutcome where
  | ok (img : Img)
  | unidentified
  | bombWarning

/-- An upload request as the handler sees it: whether the file part is
present (truthy), its declared content type, and how its bytestream decodes. -/
structure UploadReq where
  present : Bool
  content_type : String
  decoded : DecodeOutcome

/-- The `HTTPException` raised for a missing file. -/
def excMissingFile : HTTPException := ⟨400, "Missing file"⟩

/-- The `HTTPException` raised for a content type not starting with `image/`. -/
def excInvalidContentType : HTTPException := ⟨415, "Invalid content type"⟩

/-- The `HTTPException` raised when the format of the bytestream is unrecognized. -/
def excUnsupportedFileType : HTTPException := ⟨400, "Unsupported file type"⟩

/-- The `HTTPException` raised when the decode-time pixel-count guard trips. -/
def excMaximumFileSize : HTTPException := ⟨400, "Maximum file size exceeded"⟩

/-- Model of `validate_image_file_request(image_file)`: 400 if the file is missing,
415 if the declared content type does not start with `image/`. -/
def validate_image_file_request (r : UploadReq) : Option HTTPException :=
  if !r.present then some excMissingFile
  else if !(strStarts r.content_type "image/") then some excInvalidContentType
  else none

/-- Model of `raise_HTTPException_from_PIL_image(error)`: map the two recognized PIL
exception kinds to their `HTTPException`; anything else re-raises the original
error (`none` here), which cannot happen from `post_image` since its `except`
clause only catches those two kinds. -/
def raise_HTTPException_from_PIL_image (e : DecodeOutcome) : Option HTTPException :=
  match e with
  | DecodeOutcome.unidentified => some excUnsupportedFileType
  | DecodeOutcome.bombWarning => some excMaximumFileSize
  | DecodeOutcome.ok _ => none

/-- Handler for `POST /image/`: validate the request, decode the bytestream, generate a
unique identifier, save `<id>.png`, and return the identifier.  The second
component lists the files written (name and raster).  `none` models the
identifier-generation loop not having terminated within `fuel` draws. -/
def post_image (req : UploadReq) (files : List String) (draw : Nat → String)
    (fuel : Nat) : Option (Except HTTPException String × List (String × Img)) :=
  match validate_image_file_request req with
  | some e => some (Except.error e, [])
  | none =>
    match req.decoded with
    | DecodeOutcome.ok img =>
      match get_unique_image_id files draw 0 fuel with
      | none => none
      | some id => some (Except.ok id, [(id ++ ".png", img)])
    | e =>
      match raise_HTTPException_from_PIL_image e with
      | some ex => some (Except.error ex, [])
      | none => none

-- ------------------------------ Test fixtures ------------------------------

/-- A concrete 2×2 raster used in concrete directories below. -/
def imgC10 : Img := ⟨2, 2, fun _ _ => 9⟩

/-- A directory whose only file `abcx.png` decodes and starts with `abc`. -/
def dirC10 : List FsFile := [⟨"abcx.png", some imgC10⟩]

-- ------------------------ Supporting lemmas and sanity checks ------------------------

theorem Img.eqv_refl (a : Img) : Img.eqv a a :=
  ⟨rfl, rfl, fun _ _ _ _ => rfl⟩

-- Sanity checks on concrete directories
example :
    PILOpen_init [⟨"ab.png", some ⟨1, 1, fun _ _ => 5⟩⟩] "ab.png"
      = PILOpenResult.ok ⟨1, 1, fun _ _ => 5⟩ := rfl

example :
    PILOpen_init [⟨"abx.png", some ⟨1, 1, fun _ _ => 5⟩⟩] "ab.png"
      = PILOpenResult.ok ⟨1, 1, fun _ _ => 5⟩ := rfl

example : PILOpen_init [⟨"zz.png", none⟩] "ab.png" = PILOpenResult.imageError := rfl

-- ------------------------------ String facts ------------------------------

theorem stripExtChars_append_png (cs : List Char) :
    stripExtChars (cs ++ ('.' :: 'p' :: 'n' :: 'g' :: [])) = cs := by
  unfold stripExtChars
  rw [List.reverse_append]
  simp [List.dropWhile]

/-- Stripping the last extension of `id ++ ".png"` gives back `id`. -/
theorem stripLastExt_png (id : String) : stripLastExt (id ++ ".png") = id := by
  obtain ⟨cs⟩ := id
  show String.mk (stripExtChars (cs ++ ('.' :: 'p' :: 'n' :: 'g' :: []))) = String.mk cs
  rw [stripExtChars_append_png]

/-- Every string is a leading substring of itself followed by anything. -/
theorem strStarts_append (s t : String) : strStarts (s ++ t) s = true := by
  unfold strStarts
  show (s.data.isPrefixOf (s.data ++ t.data)) = true
  rw [List.isPrefixOf_iff_prefix]
  exact List.prefix_append _ _

/-- The glob-style scan is the in-order first decodable among the files whose
name starts with the pattern. -/
theorem fallbackScan_eq_firstDecodable (dir : List FsFile) (base : String) :
    fallbackScan dir base
      = firstDecodable (dir.filter (fun f => strStarts f.name base)) := by
  induction dir with
  | nil => rfl
  | cons f rest ih =>
    by_cases h : strStarts f.name base
    · cases hc : f.content <;>
        simp [fallbackScan, firstDecodable, h, hc, List.filter_cons, ih]
    · simp [fallbackScan, firstDecodable, h, List.filter_cons, ih]

-- thumbnail sanity checks: the spec scenario 200×100 into a 50×50 box gives
-- 50×25; a 10×10 image in a 100×100 box is untouched
example : thumbnailSize 200 100 50 50 = (50, 25) := by
  norm_num [thumbnailSize, round_aspect]
  rfl
example : thumbnailSize 10 10 100 100 = (10, 10) := by decide
example : thumbnailSize 100 50 60 40 = (60, 30) := by
  norm_num [thumbnailSize, round_aspect]
  rfl

example :
    get_unique_image_id ["pre.png"] (fun i => if i = 0 then "pre" else "fresh") 0 2
      = some "fresh" := by decide

/-- If no file whose name starts with `base` decodes, the glob-style scan
finds nothing. -/
theorem fallbackScan_none (dir : List FsFile) (base : String)
    (h : ∀ f ∈ dir, strStarts f.name base = true → f.content = none) :
    fallbackScan dir base = none := by
  induction dir with
  | nil => rfl
  | cons f rest ih =>
    have hrest : ∀ g ∈ rest, strStarts g.name base = true → g.content = none :=
      fun g hg => h g (List.mem_cons_of_mem f hg)
    by_cases hp : strStarts f.name base
    · have hc := h f (List.mem_cons_self f rest) hp
      simp [fallbackScan, hp, hc, ih hrest]
    · simp [fallbackScan, hp, ih hrest]

/-- If no file whose name starts with `id` decodes, the direct attempt on
`<id>.png` fails. -/
theorem tryOpen_none (dir : List FsFile) (id : String)
    (h : ∀ f ∈ dir, strStarts f.name id = true → f.content = none) :
    tryOpen dir (id ++ ".png") = none := by
  have key : ∀ f, findFile dir (id ++ ".png") = some f → f.content = none := by
    intro f hf
    unfold findFile at hf
    have hmem := List.mem_of_find?_eq_some hf
    have heq : f.name = id ++ ".png" := by simpa using List.find?_some hf
    exact h f hmem (by rw [heq]; exact strStarts_append id ".png")
  unfold tryOpen
  cases hf : findFile dir (id ++ ".png") with
  | none => rfl
  | some f => exact key f hf

/-- If some file whose name starts with `base` decodes, the glob-style scan
returns a decoded image of such a file. -/
theorem fallbackScan_mem (dir : List FsFile) (base : String)
    (h : ∃ f ∈ dir, strStarts f.name base = true ∧ f.content ≠ none) :
    ∃ img, fallbackScan dir base = some img
      ∧ ∃ f ∈ dir, strStarts f.name base = true ∧ f.content = some img := by
  induction dir with
  | nil => obtain ⟨f, hf, _⟩ := h; cases hf
  | cons f rest ih =>
    by_cases hp : strStarts f.name base
    · cases hc : f.content with
      | some img =>
        exact ⟨img, by simp [fallbackScan, hp, hc],
          f, List.mem_cons_self f rest, hp, hc⟩
      | none =>
        have hrest : ∃ g ∈ rest, strStarts g.name base = true ∧ g.content ≠ none := by
          obtain ⟨g, hg, hgs, hgc⟩ := h
          rcases List.mem_cons.mp hg with rfl | hg2
          · exact absurd hc hgc
          · exact ⟨g, hg2, hgs, hgc⟩
        obtain ⟨img, hscan, g, hg, hgs, hgc⟩ := ih hrest
        exact ⟨img, by simp [fallbackScan, hp, hc, hscan],
          g, List.mem_cons_of_mem f hg, hgs, hgc⟩
    · have hrest : ∃ g ∈ rest, strStarts g.name base = true ∧ g.content ≠ none := by
        obtain ⟨g, hg, hgs, hgc⟩ := h
        rcases List.mem_cons.mp hg with rfl | hg2
        · exact absurd hgs (by simpa using hp)
        · exact ⟨g, hg2, hgs, hgc⟩
      obtain ⟨img, hscan, g, hg, hgs, hgc⟩ := ih hrest
      exact ⟨img, by simp [fallbackScan, hp, hscan],
        g, List.mem_cons_of_mem f hg, hgs, hgc⟩

-- --------------------------------- Claims ---------------------------------

/-- C1 counterexample: the resolver fallback is **not** restricted to files
whose basename with the extension stripped equals the identifier.  On the
directory `["abx.png" ↦ decodable]` and identifier `"ab"`, the code resolves
successfully (glob prefix match) while the claimed algorithm fails. -/
theorem c1_counterexample :
    ¬ (∀ (dir : List FsFile) (id : String),
        PILOpen_init dir (id ++ ".png") = claimedResolve dir id) := by
  intro hall
  have h : PILOpenResult.ok ⟨1, 1, fun _ _ => 7⟩ = PILOpenResult.imageError :=
    hall [⟨"abx.png", some ⟨1, 1, fun _ _ => 7⟩⟩] "ab"
  exact PILOpenResult.noConfusion h

/-- C1 (amended): for every directory and identifier, `PILOpen` first
attempts `directory/<identifier>.png` directly and, if and only if that
fails (file absent, content unreadable, or decode error), scans the
directory in filesystem-listing order for files whose **name starts with**
the identifier, returning the first candidate that decodes. -/
theorem c1_resolver_amended (dir : List FsFile) (id : String) :
    PILOpen_init dir (id ++ ".png") = amendedResolve dir id := by
  unfold PILOpen_init amendedResolve
  rw [stripLastExt_png, fallbackScan_eq_firstDecodable]

/-- C2 counterexample: on the exit path where the body raised a `ValueError`,
the handle is left open and `close()` is never called, so the handle is not
closed on every exit path. -/
theorem c2_counterexample :
    (PILOpen_exit (some ExcKind.valueError) ⟨true⟩).handle.isOpen = true
    ∧ (PILOpen_exit (some ExcKind.valueError) ⟨true⟩).closeCalls = 0 := by
  decide

/-- C2 (amended): on every exit path whose in-flight exception is not a
`ValueError` — normal return and every other raised exception alike — the
handle is closed, with `close()` invoked exactly once; on a `ValueError`
exit the handle is left untouched (the code assumes its resource was already
invalidated) and the exception is suppressed. -/
theorem c2_exit_closes_amended (exc : Option ExcKind) (h : PILHandle) :
    (exc ≠ some ExcKind.valueError →
      (PILOpen_exit exc h).handle.isOpen = false
      ∧ (PILOpen_exit exc h).closeCalls = 1)
    ∧ (exc = some ExcKind.valueError → PILOpen_exit exc h = ⟨h, true, 0⟩) := by
  cases exc with
  | none => exact ⟨fun _ => ⟨rfl, rfl⟩, fun hc => by cases hc⟩
  | some e => cases e <;> simp [PILOpen_exit]

/-- Witness for the amended C2 at a concrete non-`ValueError` exit. -/
theorem c2_exit_closes_amended_witness :
    (some ExcKind.other ≠ some ExcKind.valueError)
    ∧ ((PILOpen_exit (some ExcKind.other) ⟨true⟩).handle.isOpen = false
        ∧ (PILOpen_exit (some ExcKind.other) ⟨true⟩).closeCalls = 1) :=
  ⟨by decide, (c2_exit_closes_amended (some ExcKind.other) ⟨true⟩).1 (by decide)⟩

/-- C3: during handle teardown exactly the `ValueError` condition is caught
and suppressed (never propagated to the caller); an exit with an exception of
any other kind, or none, is not suppressed, so every other error propagates. -/
theorem c3_teardown_suppression (exc : Option ExcKind) (h : PILHandle) :
    (PILOpen_exit exc h).suppress = true ↔ exc = some ExcKind.valueError := by
  cases exc with
  | none => simp [PILOpen_exit]
  | some e => cases e <;> simp [PILOpen_exit]

/-- C4: when neither `directory/<id>.png` nor any fallback candidate (any
file whose name starts with the identifier) decodes, resolution raises
`ImageError`, and each GET endpoint maps exactly this failure to a 404
response. -/
theorem c4_image_not_found (dir : List FsFile) (id : String) :
    ((∀ f ∈ dir, strStarts f.name id = true → f.content = none) →
      PILOpen_init dir (id ++ ".png") = PILOpenResult.imageError
      ∧ get_image dir id
          = Except.error ⟨404, "Image with id " ++ id ++ " not found"⟩
      ∧ (∀ direction degrees, get_rotated_image dir id direction degrees
          = Except.error ⟨404, "Image with id " ++ id ++ " not found"⟩)
      ∧ (∀ lock w h, get_resized_image dir id lock w h
          = Except.error ⟨404, "Image with id " ++ id ++ " not found"⟩))
    ∧ (∀ e, get_image dir id = Except.error e →
        PILOpen_init dir (id ++ ".png") = PILOpenResult.imageError
        ∧ e = ⟨404, "Image with id " ++ id ++ " not found"⟩) := by
  constructor
  · intro h
    have hres : PILOpen_init dir (id ++ ".png") = PILOpenResult.imageError := by
      unfold PILOpen_init
      rw [tryOpen_none dir id h, stripLastExt_png, fallbackScan_none dir id h]
    exact ⟨hres, by simp [get_image, hres], fun _ _ => by simp [get_rotated_image, hres],
      fun _ _ _ => by simp [get_resized_image, hres]⟩
  · intro e he
    cases hres : PILOpen_init dir (id ++ ".png") with
    | ok img => simp [get_image, hres] at he
    | imageError =>
      simp [get_image, hres] at he
      exact ⟨rfl, he.symm⟩

/-- Witness for C4 on a directory with no file starting with the identifier. -/
theorem c4_image_not_found_witness :
    get_image [⟨"zz.png", some ⟨1, 1, fun _ _ => 3⟩⟩] "ab"
      = Except.error ⟨404, "Image with id " ++ "ab" ++ " not found"⟩ :=
  ((c4_image_not_found [⟨"zz.png", some ⟨1, 1, fun _ _ => 3⟩⟩] "ab").1
    (by
      intro f hf hs
      simp only [List.mem_singleton] at hf
      subst hf
      exact absurd hs (by decide))).2.1

/-- C10: when the exact file `<id>.png` does not open but some file whose
name merely starts with `id` decodes, the resolver succeeds and returns the
decoded image of such a file (the first in listing order), and the GET
endpoint serves it instead of a 404. -/
theorem c10_prefix_serves_other_file (dir : List FsFile) (id : String)
    (h1 : tryOpen dir (id ++ ".png") = none)
    (h2 : ∃ f ∈ dir, strStarts f.name id = true ∧ f.content ≠ none) :
    ∃ img, PILOpen_init dir (id ++ ".png") = PILOpenResult.ok img
      ∧ get_image dir id = Except.ok img
      ∧ ∃ f ∈ dir, strStarts f.name id = true ∧ f.content = some img := by
  obtain ⟨img, hscan, f, hf, hfs, hfc⟩ := fallbackScan_mem dir id h2
  have hres : PILOpen_init dir (id ++ ".png") = PILOpenResult.ok img := by
    unfold PILOpen_init
    rw [h1, stripLastExt_png, hscan]
  exact ⟨img, hres, by simp [get_image, hres], f, hf, hfs, hfc⟩

/-- Witness for C10: identifier `"abc"` resolves to the decodable file
`"abcx.png"`. -/
theorem c10_prefix_serves_other_file_witness :
    tryOpen dirC10 ("abc" ++ ".png") = none
    ∧ ∃ img,
        PILOpen_init dirC10 ("abc" ++ ".png") = PILOpenResult.ok img
        ∧ get_image dirC10 "abc" = Except.ok img
        ∧ ∃ f ∈ dirC10, strStarts f.name "abc" = true ∧ f.content = some img :=
  ⟨rfl,
    c10_prefix_serves_other_file dirC10 "abc" rfl
      ⟨⟨"abcx.png", some imgC10⟩, by simp [dirC10], by decide,
        fun hc => Option.noConfusion hc⟩⟩

-- ------------------------------ Rotation facts ------------------------------

/-- Four counter-clockwise quarter turns reproduce the raster. -/
theorem rot90_fourfold (i : Img) : Img.eqv (rot90 (rot90 (rot90 (rot90 i)))) i := by
  refine ⟨rfl, rfl, fun x y hx hy => ?_⟩
  dsimp only [rot90] at hx hy ⊢
  have ha : i.width - 1 - (i.width - 1 - x) = x := by omega
  have hb : i.height - 1 - (i.height - 1 - y) = y := by omega
  rw [ha, hb]

/-- Four clockwise quarter turns reproduce the raster. -/
theorem rot270_fourfold (i : Img) : Img.eqv (rot270 (rot270 (rot270 (rot270 i)))) i := by
  refine ⟨rfl, rfl, fun x y hx hy => ?_⟩
  dsimp only [rot270] at hx hy ⊢
  have ha : i.width - 1 - (i.width - 1 - x) = x := by omega
  have hb : i.height - 1 - (i.height - 1 - y) = y := by omega
  rw [ha, hb]

/-- A 90-degree rotation is a counter-clockwise quarter turn for `'L'`/`'l'`
and a clockwise quarter turn (= `ROTATE_270`) otherwise. -/
theorem applyRotation_90 (direction : Char) (img : Img) :
    applyRotation direction 90 img
      = if direction = 'L' ∨ direction = 'l' then rot90 img else rot270 img := by
  by_cases hL : direction = 'L' ∨ direction = 'l'
  · have hdeg : rotDeg direction 90 = 90 := by
      unfold rotDeg; rw [if_pos hL]; decide
    unfold applyRotation
    rw [hdeg, if_pos hL]
    norm_num
  · have hdeg : rotDeg direction 90 = 270 := by
      unfold rotDeg
      rw [if_neg hL]
      decide
    unfold applyRotation
    rw [hdeg, if_neg hL]
    norm_num

/-- C5: rotating clockwise by any multiple `d` of 90 produces the same raster
as rotating counter-clockwise by `(360 - d) % 360`; rotating by a multiple of
360 in either direction returns the raster unchanged; and four successive
90-degree rotations in the same direction reproduce the original raster. -/
theorem c5_rotation_group_laws (img : Img) (d : Int) (hd : (90 : Int) ∣ d)
    (k : Int) (dirc : Char) :
    applyRotation 'R' d img = applyRotation 'L' ((360 - d) % 360) img
    ∧ applyRotation dirc (360 * k) img = img
    ∧ Img.eqv (applyRotation dirc 90 (applyRotation dirc 90
        (applyRotation dirc 90 (applyRotation dirc 90 img)))) img := by
  refine ⟨?_, ?_, ?_⟩
  · have h0 : 0 ≤ d % 360 := Int.emod_nonneg d (by norm_num)
    have h1 : d % 360 < 360 := Int.emod_lt_of_pos d (by norm_num)
    have hcases : d % 360 = 0 ∨ d % 360 = 90 ∨ d % 360 = 180 ∨ d % 360 = 270 := by
      omega
    have hRneg : ¬('R' = 'L' ∨ 'R' = 'l') := by decide
    have hLpos : ('L' = 'L' ∨ 'L' = 'l') := Or.inl rfl
    rcases hcases with h | h | h | h
    · have l1 : rotDeg 'R' d = 360 := by
        unfold rotDeg; rw [if_neg hRneg, h]; decide
      have l2 : rotDeg 'L' ((360 - d) % 360) = 0 := by
        unfold rotDeg; rw [if_pos hLpos]; omega
      unfold applyRotation; rw [l1, l2]; norm_num
    · have l1 : rotDeg 'R' d = 270 := by
        unfold rotDeg; rw [if_neg hRneg, h]; decide
      have l2 : rotDeg 'L' ((360 - d) % 360) = 270 := by
        unfold rotDeg; rw [if_pos hLpos]; omega
      unfold applyRotation; rw [l1, l2]
    · have l1 : rotDeg 'R' d = 180 := by
        unfold rotDeg; rw [if_neg hRneg, h]; decide
      have l2 : rotDeg 'L' ((360 - d) % 360) = 180 := by
        unfold rotDeg; rw [if_pos hLpos]; omega
      unfold applyRotation; rw [l1, l2]
    · have l1 : rotDeg 'R' d = 90 := by
        unfold rotDeg; rw [if_neg hRneg, h]; decide
      have l2 : rotDeg 'L' ((360 - d) % 360) = 90 := by
        unfold rotDeg; rw [if_pos hLpos]; omega
      unfold applyRotation; rw [l1, l2]
  · have hmod : (360 * k) % 360 = 0 := by omega
    by_cases hL : dirc = 'L' ∨ dirc = 'l'
    · have l1 : rotDeg dirc (360 * k) = 0 := by
        unfold rotDeg; rw [if_pos hL, hmod]
      unfold applyRotation; rw [l1]; norm_num
    · have l1 : rotDeg dirc (360 * k) = 360 := by
        unfold rotDeg; rw [if_neg hL, hmod]; decide
      unfold applyRotation; rw [l1]; norm_num
  · rw [applyRotation_90, applyRotation_90, applyRotation_90, applyRotation_90]
    by_cases hL : dirc = 'L' ∨ dirc = 'l'
    · rw [if_pos hL, if_pos hL, if_pos hL, if_pos hL]
      exact rot90_fourfold img
    · rw [if_neg hL, if_neg hL, if_neg hL, if_neg hL]
      exact rot270_fourfold img

/-- Witness for C5 at a concrete raster and `d = 90`, `k = 1`. -/
theorem c5_rotation_group_laws_witness :
    ((90 : Int) ∣ 90)
    ∧ (applyRotation 'R' 90 (Img.mk 3 2 (fun x y => x + 10 * y))
          = applyRotation 'L' ((360 - 90) % 360) (Img.mk 3 2 (fun x y => x + 10 * y))
        ∧ applyRotation 'R' (360 * 1) (Img.mk 3 2 (fun x y => x + 10 * y))
          = Img.mk 3 2 (fun x y => x + 10 * y)
        ∧ Img.eqv (applyRotation 'R' 90 (applyRotation 'R' 90 (applyRotation 'R' 90
            (applyRotation 'R' 90 (Img.mk 3 2 (fun x y => x + 10 * y))))))
            (Img.mk 3 2 (fun x y => x + 10 * y))) :=
  ⟨dvd_refl 90, c5_rotation_group_laws (Img.mk 3 2 (fun x y => x + 10 * y)) 90
    (dvd_refl 90) 1 'R'⟩

-- The four upload failure modes at concrete requests
example : post_image ⟨false, "image/png", DecodeOutcome.unidentified⟩ [] (fun _ => "x") 1
    = some (Except.error excMissingFile, []) := rfl
example : post_image ⟨true, "text/plain", DecodeOutcome.unidentified⟩ [] (fun _ => "x") 1
    = some (Except.error excInvalidContentType, []) := rfl
example : post_image ⟨true, "image/png", DecodeOutcome.unidentified⟩ [] (fun _ => "x") 1
    = some (Except.error excUnsupportedFileType, []) := rfl
example : post_image ⟨true, "image/png", DecodeOutcome.bombWarning⟩ [] (fun _ => "x") 1
    = some (Except.error excMaximumFileSize, []) := rfl

-- Specification scenario: a 100×50 raster rotated 90° counter-clockwise is 50×100
example : (applyRotation 'L' 90 (Img.mk 100 50 (fun _ _ => 0))).width = 50
    ∧ (applyRotation 'L' 90 (Img.mk 100 50 (fun _ _ => 0))).height = 100 := by decide

-- ------------------------------ Thumbnail facts ------------------------------

/-- The rounded value is at least 1. -/
theorem round_aspect_pos (q kf kc : ℚ) : 1 ≤ round_aspect q kf kc :=
  le_max_right _ 1

/-- The rounded value never exceeds an integer bound at least 1 that the
number itself respects. -/
theorem round_aspect_le (q : ℚ) (m : Int) (hm : 1 ≤ m) (h : q ≤ (m : ℚ))
    (kf kc : ℚ) : round_aspect q kf kc ≤ m := by
  unfold round_aspect
  have hceil : ⌈q⌉ ≤ m := Int.ceil_le.mpr h
  apply max_le _ hm
  split_ifs
  · exact le_trans (Int.floor_le_ceil q) hceil
  · exact hceil

/-- The rounded value of a positive number is within 1 of it. -/
theorem round_aspect_dist (q kf kc : ℚ) (hq : 0 < q) :
    |((round_aspect q kf kc : Int) : ℚ) - q| ≤ 1 := by
  unfold round_aspect
  split_ifs with hk
  · rcases le_or_lt 1 ⌊q⌋ with h1 | h1
    · rw [max_eq_left h1, abs_le]
      constructor
      · have := Int.sub_one_lt_floor q
        linarith
      · have := Int.floor_le q
        linarith
    · rw [max_eq_right (by omega : ⌊q⌋ ≤ 1)]
      have hq1 : q < 1 := by
        have h2 := (Int.floor_lt).mp (by omega : ⌊q⌋ < (1 : Int))
        simpa using h2
      rw [abs_le]
      push_cast
      constructor <;> linarith
  · have hc1 : 1 ≤ ⌈q⌉ := Int.ceil_pos.mpr hq
    rw [max_eq_left hc1, abs_le]
    constructor
    · have := Int.le_ceil q
      linarith
    · have := Int.ceil_lt_add_one q
      linarith

/-- The size computed by `thumbnail` fits in the requested box, preserves the
aspect ratio within integer rounding, is the original size exactly when the
image already fits, and otherwise pins one requested dimension exactly. -/
theorem thumbnailSize_spec (w0 h0 x y : Nat)
    (hx : 0 < x) (hy : 0 < y) (hw0 : 0 < w0) (hh0 : 0 < h0) :
    (thumbnailSize w0 h0 x y).1 ≤ x
    ∧ (thumbnailSize w0 h0 x y).2 ≤ y
    ∧ |((thumbnailSize w0 h0 x y).1 : Int) * h0 - ((thumbnailSize w0 h0 x y).2 : Int) * w0|
        ≤ ((max w0 h0 : Nat) : Int)
    ∧ (w0 ≤ x ∧ h0 ≤ y → thumbnailSize w0 h0 x y = (w0, h0))
    ∧ (¬(w0 ≤ x ∧ h0 ≤ y) →
        (thumbnailSize w0 h0 x y).1 = x ∨ (thumbnailSize w0 h0 x y).2 = y) := by
  have hxq : (0 : ℚ) < (x : ℚ) := by positivity
  have hyq : (0 : ℚ) < (y : ℚ) := by exact_mod_cast hy
  have hw0q : (0 : ℚ) < (w0 : ℚ) := by exact_mod_cast hw0
  have hh0q : (0 : ℚ) < (h0 : ℚ) := by exact_mod_cast hh0
  by_cases hfit : w0 ≤ x ∧ h0 ≤ y
  · unfold thumbnailSize
    rw [if_pos hfit]
    refine ⟨hfit.1, hfit.2, ?_, fun _ => rfl, fun hn => absurd hfit hn⟩
    have hzero : ((w0 : Int) * h0 - (h0 : Int) * w0) = 0 := by ring
    rw [hzero]
    simp
  · unfold thumbnailSize
    rw [if_neg hfit]
    set aspect : ℚ := (w0 : ℚ) / (h0 : ℚ) with haspect
    have haspos : 0 < aspect := by positivity
    by_cases hbr : aspect ≤ (x : ℚ) / (y : ℚ)
    · rw [if_pos hbr]
      dsimp only
      set q : ℚ := (y : ℚ) * aspect with hqdef
      have hqpos : 0 < q := by positivity
      have hqle : q ≤ ((x : Int) : ℚ) := by
        have h2 : (y : ℚ) * aspect ≤ (y : ℚ) * ((x : ℚ) / (y : ℚ)) :=
          mul_le_mul_of_nonneg_left hbr (le_of_lt hyq)
        have h3 : (y : ℚ) * ((x : ℚ) / (y : ℚ)) = (x : ℚ) := by
          field_simp
        push_cast
        rw [← h3]
        exact h2
      set p : Int := round_aspect q
        |aspect - (⌊q⌋ : ℚ) / (y : ℚ)| |aspect - (⌈q⌉ : ℚ) / (y : ℚ)| with hpdef
      have hp1 : 1 ≤ p := round_aspect_pos _ _ _
      have hpx : p ≤ (x : Int) := round_aspect_le q x (by exact_mod_cast hx) hqle _ _
      have hptn : ((p.toNat : Int)) = p := Int.toNat_of_nonneg (by omega)
      have hdist : |((p : Int) : ℚ) - q| ≤ 1 := round_aspect_dist q _ _ hqpos
      refine ⟨by exact_mod_cast Int.toNat_le.mpr hpx, le_refl y, ?_, fun hc => absurd hc hfit,
        fun _ => Or.inr rfl⟩
      have hqh0 : q * (h0 : ℚ) = (y : ℚ) * (w0 : ℚ) := by
        rw [hqdef, haspect]
        field_simp
      have hmul : |((p : Int) : ℚ) * (h0 : ℚ) - (y : ℚ) * (w0 : ℚ)| ≤ (h0 : ℚ) := by
        rw [← hqh0, ← sub_mul, abs_mul, abs_of_pos hh0q]
        calc |((p : Int) : ℚ) - q| * (h0 : ℚ) ≤ 1 * (h0 : ℚ) := by
              exact mul_le_mul_of_nonneg_right hdist (le_of_lt hh0q)
          _ = (h0 : ℚ) := one_mul _
      have hcast : ((p.toNat : Nat) : ℚ) = ((p : Int) : ℚ) := by exact_mod_cast hptn
      have hfin : |((p.toNat : Nat) : ℚ) * ((h0 : Nat) : ℚ) - ((y : Nat) : ℚ) * ((w0 : Nat) : ℚ)|
          ≤ ((h0 : Nat) : ℚ) := by
        rw [hcast]
        exact hmul
      refine le_trans ?_ (by exact_mod_cast Nat.le_max_right w0 h0 :
        ((h0 : Nat) : Int) ≤ ((max w0 h0 : Nat) : Int))
      exact_mod_cast hfin
    · rw [if_neg hbr]
      dsimp only
      have hlt : (x : ℚ) / (y : ℚ) < aspect := lt_of_not_le hbr
      set q : ℚ := (x : ℚ) / aspect with hqdef
      have hqpos : 0 < q := by positivity
      have hqle : q ≤ ((y : Int) : ℚ) := by
        have hxy : 0 < (x : ℚ) / (y : ℚ) := by positivity
        have h2 : (x : ℚ) / aspect < (x : ℚ) / ((x : ℚ) / (y : ℚ)) :=
          div_lt_div_of_pos_left hxq hxy hlt
        have h3 : (x : ℚ) / ((x : ℚ) / (y : ℚ)) = (y : ℚ) := by
          field_simp
        push_cast
        rw [hqdef]
        linarith [h3 ▸ h2]
      set p : Int := round_aspect q
        (if ⌊q⌋ = 0 then 0 else |aspect - (x : ℚ) / (⌊q⌋ : ℚ)|)
        (if ⌈q⌉ = 0 then 0 else |aspect - (x : ℚ) / (⌈q⌉ : ℚ)|) with hpdef
      have hp1 : 1 ≤ p := round_aspect_pos _ _ _
      have hpy : p ≤ (y : Int) := round_aspect_le q y (by exact_mod_cast hy) hqle _ _
      have hptn : ((p.toNat : Int)) = p := Int.toNat_of_nonneg (by omega)
      have hdist : |((p : Int) : ℚ) - q| ≤ 1 := round_aspect_dist q _ _ hqpos
      refine ⟨le_refl x, by exact_mod_cast Int.toNat_le.mpr hpy, ?_, fun hc => absurd hc hfit,
        fun _ => Or.inl rfl⟩
      have hqw0 : q * (w0 : ℚ) = (x : ℚ) * (h0 : ℚ) := by
        rw [hqdef, haspect]
        field_simp
      have hmul : |((p : Int) : ℚ) * (w0 : ℚ) - (x : ℚ) * (h0 : ℚ)| ≤ (w0 : ℚ) := by
        rw [← hqw0, ← sub_mul, abs_mul, abs_of_pos hw0q]
        calc |((p : Int) : ℚ) - q| * (w0 : ℚ) ≤ 1 * (w0 : ℚ) := by
              exact mul_le_mul_of_nonneg_right hdist (le_of_lt hw0q)
          _ = (w0 : ℚ) := one_mul _
      have hcast : ((p.toNat : Nat) : ℚ) = ((p : Int) : ℚ) := by exact_mod_cast hptn
      have hfin : |((x : Nat) : ℚ) * ((h0 : Nat) : ℚ) - ((p.toNat : Nat) : ℚ) * ((w0 : Nat) : ℚ)|
          ≤ ((w0 : Nat) : ℚ) := by
        rw [abs_sub_comm, hcast]
        exact hmul
      refine le_trans ?_ (by exact_mod_cast Nat.le_max_left w0 h0 :
        ((w0 : Nat) : Int) ≤ ((max w0 h0 : Nat) : Int))
      exact_mod_cast hfin

/-- The `thumbnail` operation leaves the raster unchanged when it already fits the box. -/
theorem thumbnailImg_fit (img : Img) (x y : Nat)
    (hfit : img.width ≤ x ∧ img.height ≤ y) : thumbnailImg img x y = img := by
  have hsize : thumbnailSize img.width img.height x y = (img.width, img.height) := by
    unfold thumbnailSize
    rw [if_pos hfit]
  unfold thumbnailImg
  rw [hsize]
  simp

/-- The dimensions of a thumbnailed raster are the computed thumbnail size. -/
theorem thumbnailImg_dims (img : Img) (x y : Nat) :
    (thumbnailImg img x y).width = (thumbnailSize img.width img.height x y).1
    ∧ (thumbnailImg img x y).height = (thumbnailSize img.width img.height x y).2 := by
  unfold thumbnailImg
  dsimp only
  split_ifs with hc
  · exact ⟨hc.1.symm, hc.2.symm⟩
  · exact ⟨rfl, rfl⟩

-- ------------------------- Identifier generator facts -------------------------

/-- The generator returns the first draw (at or after index `k`) with no
prefix match in the directory, all earlier draws having collided. -/
theorem get_unique_image_id_first (files : List String) (draw : Nat → String) :
    ∀ fuel k id, get_unique_image_id files draw k fuel = some id →
      ∃ i, k ≤ i ∧ draw i = id ∧ collides files (draw i) = false
        ∧ ∀ j, k ≤ j → j < i → collides files (draw j) = true := by
  intro fuel
  induction fuel with
  | zero => intro k id h; cases h
  | succ m ih =>
    intro k id h
    unfold get_unique_image_id at h
    by_cases hc : collides files (draw k) = true
    · rw [if_pos hc] at h
      obtain ⟨i, hki, hdi, hnc, hall⟩ := ih (k + 1) id h
      refine ⟨i, by omega, hdi, hnc, fun j hj1 hj2 => ?_⟩
      rcases Nat.eq_or_lt_of_le hj1 with rfl | hlt
      · exact hc
      · exact hall j hlt hj2
    · rw [if_neg hc] at h
      injection h with h1
      refine ⟨k, Nat.le_refl k, h1, by simpa using hc, fun j hj1 hj2 => ?_⟩
      omega

/-- A returned identifier never prefix-matches a pre-existing file. -/
theorem get_unique_image_id_noncollide (files : List String) (draw : Nat → String)
    (fuel k : Nat) (id : String)
    (h : get_unique_image_id files draw k fuel = some id) :
    collides files id = false := by
  obtain ⟨i, _, hdi, hnc, _⟩ := get_unique_image_id_first files draw fuel k id h
  rw [← hdi]
  exact hnc

/-- Collision checks distribute over directory growth. -/
theorem collides_append (a b : List String) (id : String) :
    collides (a ++ b) id = (collides a id || collides b id) := by
  simp [collides]

/-- The file just persisted for `id0` is a prefix match for `id0` itself. -/
theorem collides_persisted_self (id0 : String) :
    collides [id0 ++ ".png"] id0 = true := by
  simp [collides]
  exact strStarts_append id0 ".png"

/-- All identifiers of a sequential run avoid the initial directory and are
pairwise distinct. -/
theorem genSeq_inv (draw : Nat → Nat → String) (fuel : Nat) :
    ∀ n files ids final, genSeq draw fuel files n = some (ids, final) →
      (∀ id ∈ ids, collides files id = false) ∧ ids.Pairwise (· ≠ ·) := by
  intro n
  induction n with
  | zero =>
    intro files ids final h
    unfold genSeq at h
    injection h with h1
    injection h1 with h2 h3
    subst h2
    exact ⟨by simp, by simp⟩
  | succ m ih =>
    intro files ids final h
    unfold genSeq at h
    cases hg : get_unique_image_id files (draw m) 0 fuel with
    | none => rw [hg] at h; cases h
    | some id0 =>
      rw [hg] at h
      dsimp only at h
      cases hs : genSeq draw fuel (files ++ [id0 ++ ".png"]) m with
      | none => rw [hs] at h; cases h
      | some p =>
        obtain ⟨ids2, final2⟩ := p
        rw [hs] at h
        injection h with h1
        injection h1 with h2 h3
        subst h2
        subst h3
        have hcol : collides files id0 = false :=
          get_unique_image_id_noncollide files (draw m) fuel 0 id0 hg
        obtain ⟨hall, hpw⟩ := ih (files ++ [id0 ++ ".png"]) ids2 final2 hs
        have hne : ∀ id ∈ ids2, id0 ≠ id := by
          intro id hid heq
          subst heq
          have h2 := hall id0 hid
          rw [collides_append, collides_persisted_self] at h2
          simp at h2
        refine ⟨?_, List.Pairwise.cons hne hpw⟩
        intro id hid
        rcases List.mem_cons.mp hid with rfl | hid2
        · exact hcol
        · have h2 := hall id hid2
          rw [collides_append] at h2
          exact (Bool.or_eq_false_iff.mp h2).1

-- ----------------------------- Claims (continued) -----------------------------

/-- C7: the identifier generator returns the first drawn identifier with no
prefix match in the directory (re-checking after every draw), and over a
sequential run in which the file of each identifier is persisted before the next
generation, all returned identifiers are pairwise distinct and none
prefix-matches a file pre-existing at the start of the run. -/
theorem c7_unique_id_generation (files : List String) (draw : Nat → String)
    (fuel : Nat) (id : String) (seqd : Nat → Nat → String) (n sfuel : Nat)
    (ids final : List String)
    (h1 : get_unique_image_id files draw 0 fuel = some id)
    (h2 : genSeq seqd sfuel files n = some (ids, final)) :
    (∃ i, draw i = id ∧ collides files (draw i) = false
      ∧ ∀ j, j < i → collides files (draw j) = true)
    ∧ ids.Pairwise (· ≠ ·)
    ∧ (∀ x ∈ ids, collides files x = false) := by
  obtain ⟨i, _, hdi, hnc, hall⟩ := get_unique_image_id_first files draw fuel 0 id h1
  obtain ⟨hseq, hpw⟩ := genSeq_inv seqd sfuel n files ids final h2
  exact ⟨⟨i, hdi, hnc, fun j hj => hall j (Nat.zero_le j) hj⟩, hpw, hseq⟩

/-- Witness for C7: the first draw collides with `pre.png`, the second is
returned; a two-step sequential run yields distinct fresh identifiers. -/
theorem c7_unique_id_generation_witness :
    (get_unique_image_id ["pre.png"] (fun i => if i = 0 then "pre" else "fresh") 0 2
        = some "fresh")
    ∧ (genSeq (fun step _ => if step = 1 then "aaa" else "bbb") 1 ["pre.png"] 2
        = some (["aaa", "bbb"], ["pre.png", "aaa.png", "bbb.png"]))
    ∧ (∃ i, (fun i => if i = 0 then "pre" else "fresh") i = "fresh"
        ∧ collides ["pre.png"] ((fun i => if i = 0 then "pre" else "fresh") i) = false
        ∧ ∀ j, j < i →
            collides ["pre.png"] ((fun i => if i = 0 then "pre" else "fresh") j) = true)
    ∧ (["aaa", "bbb"] : List String).Pairwise (· ≠ ·)
    ∧ (∀ x ∈ (["aaa", "bbb"] : List String), collides ["pre.png"] x = false) := by
  refine ⟨by decide, by decide, ?_⟩
  have h := c7_unique_id_generation ["pre.png"]
    (fun i => if i = 0 then "pre" else "fresh") 2 "fresh"
    (fun step _ => if step = 1 then "aaa" else "bbb") 2 1
    ["aaa", "bbb"] ["pre.png", "aaa.png", "bbb.png"] (by decide) (by decide)
  exact ⟨h.1, h.2.1, h.2.2⟩

/-- C8: whenever the upload handler terminates, either it succeeded —
returning a freshly generated identifier `id` and writing exactly the one
file `<id>.png` with the decoded image — or it failed with an
`HTTPException` and wrote no file at all. -/
theorem c8_upload_writes (req : UploadReq) (files : List String)
    (draw : Nat → String) (fuel : Nat) (r : Except HTTPException String)
    (ws : List (String × Img))
    (h : post_image req files draw fuel = some (r, ws)) :
    (∃ id img, r = Except.ok id ∧ req.decoded = DecodeOutcome.ok img
      ∧ get_unique_image_id files draw 0 fuel = some id
      ∧ ws = [(id ++ ".png", img)])
    ∨ (∃ e, r = Except.error e ∧ ws = []) := by
  unfold post_image at h
  cases hv : validate_image_file_request req with
  | some e =>
    rw [hv] at h
    injection h with h1
    injection h1 with h2 h3
    exact Or.inr ⟨e, h2.symm, h3.symm⟩
  | none =>
    rw [hv] at h
    cases hd : req.decoded with
    | ok img =>
      rw [hd] at h
      dsimp only at h
      cases hg : get_unique_image_id files draw 0 fuel with
      | none => rw [hg] at h; cases h
      | some id =>
        rw [hg] at h
        injection h with h1
        injection h1 with h2 h3
        exact Or.inl ⟨id, img, h2.symm, rfl, rfl, h3.symm⟩
    | unidentified =>
      rw [hd] at h
      dsimp only [raise_HTTPException_from_PIL_image] at h
      injection h with h1
      injection h1 with h2 h3
      exact Or.inr ⟨excUnsupportedFileType, h2.symm, h3.symm⟩
    | bombWarning =>
      rw [hd] at h
      dsimp only [raise_HTTPException_from_PIL_image] at h
      injection h with h1
      injection h1 with h2 h3
      exact Or.inr ⟨excMaximumFileSize, h2.symm, h3.symm⟩

/-- Witness for C8: a valid 1×1 upload writes exactly `id1.png`. -/
theorem c8_upload_writes_witness :
    (post_image ⟨true, "image/png", DecodeOutcome.ok (Img.mk 1 1 (fun _ _ => 0))⟩
        [] (fun _ => "id1") 1
      = some (Except.ok "id1", [("id1" ++ ".png", Img.mk 1 1 (fun _ _ => 0))]))
    ∧ ((∃ id img, (Except.ok "id1" : Except HTTPException String) = Except.ok id
        ∧ (DecodeOutcome.ok (Img.mk 1 1 (fun _ _ => 0)) : DecodeOutcome)
            = DecodeOutcome.ok img
        ∧ get_unique_image_id [] (fun _ => "id1") 0 1 = some id
        ∧ [("id1" ++ ".png", Img.mk 1 1 (fun _ _ => 0))] = [(id ++ ".png", img)])
      ∨ (∃ e, (Except.ok "id1" : Except HTTPException String) = Except.error e
        ∧ [("id1" ++ ".png", Img.mk 1 1 (fun _ _ => 0))] = [])) :=
  ⟨rfl,
    c8_upload_writes ⟨true, "image/png", DecodeOutcome.ok (Img.mk 1 1 (fun _ _ => 0))⟩
      [] (fun _ => "id1") 1 (Except.ok "id1")
      [("id1" ++ ".png", Img.mk 1 1 (fun _ _ => 0))] rfl⟩

/-- C9: the upload handler fails 400 "Missing file" exactly when the file is
absent; 415 exactly when the file is present but its declared content type
does not begin with `image/`; 400 "Unsupported file type" exactly when those
checks pass but the format is unrecognized; and 400 for the maximum pixel
count exactly when those checks pass and the decompression-bomb guard trips —
the checks applied in that order. -/
theorem c9_upload_error_mapping (req : UploadReq) (files : List String)
    (draw : Nat → String) (fuel : Nat) :
    (post_image req files draw fuel = some (Except.error excMissingFile, [])
      ↔ req.present = false)
    ∧ (post_image req files draw fuel = some (Except.error excInvalidContentType, [])
      ↔ req.present = true ∧ strStarts req.content_type "image/" = false)
    ∧ (post_image req files draw fuel = some (Except.error excUnsupportedFileType, [])
      ↔ req.present = true ∧ strStarts req.content_type "image/" = true
          ∧ req.decoded = DecodeOutcome.unidentified)
    ∧ (post_image req files draw fuel = some (Except.error excMaximumFileSize, [])
      ↔ req.present = true ∧ strStarts req.content_type "image/" = true
          ∧ req.decoded = DecodeOutcome.bombWarning) := by
  obtain ⟨p, ct, dec⟩ := req
  have hne1 : excMissingFile ≠ excInvalidContentType := by decide
  have hne2 : excMissingFile ≠ excUnsupportedFileType := by decide
  have hne3 : excMissingFile ≠ excMaximumFileSize := by decide
  have hne4 : excInvalidContentType ≠ excUnsupportedFileType := by decide
  have hne5 : excInvalidContentType ≠ excMaximumFileSize := by decide
  have hne6 : excUnsupportedFileType ≠ excMaximumFileSize := by decide
  cases p with
  | false =>
    simp [post_image, validate_image_file_request, hne1, hne2, hne3]
  | true =>
    by_cases hs : strStarts ct "image/" = true
    · cases dec with
      | ok img =>
        cases hg : get_unique_image_id files draw 0 fuel with
        | none =>
          simp [post_image, validate_image_file_request, hs, hg]
        | some id =>
          simp [post_image, validate_image_file_request, hs, hg]
      | unidentified =>
        simp only [post_image, validate_image_file_request,
          raise_HTTPException_from_PIL_image, hs]
        refine ⟨?_, ?_, ?_, ?_⟩ <;> simp <;> decide
      | bombWarning =>
        simp only [post_image, validate_image_file_request,
          raise_HTTPException_from_PIL_image, hs]
        refine ⟨?_, ?_, ?_, ?_⟩ <;> simp <;> decide
    · have hs2 : strStarts ct "image/" = false := by simpa using hs
      simp [post_image, validate_image_file_request, hs2, hne1.symm, hne4, hne5]

/-- C6 counterexample: a 10×10 image resized into a 100×100 box with the
aspect ratio locked is returned unchanged (the thumbnail primitive never
upscales), so the result matches **neither** requested dimension. -/
theorem c6_counterexample :
    ¬((applyResize true 100 100 (Img.mk 10 10 (fun _ _ => 0))).width = 100
      ∨ (applyResize true 100 100 (Img.mk 10 10 (fun _ _ => 0))).height = 100) := by
  decide

/-- C6 (amended): with `lock_aspect_ratio` false the result is exactly
`width × height`; with it true the result fits within the box, preserves the
original aspect ratio within integer-rounding tolerance, and — when the
original does not already fit inside the box — matches one requested
dimension exactly with the other within its bound; when the original already
fits, it is returned unchanged (the thumbnail primitive never upscales). -/
theorem c6_resize_amended (img : Img) (w h : Nat)
    (hw : 0 < w) (hh : 0 < h) (hw0 : 0 < img.width) (hh0 : 0 < img.height) :
    ((applyResize false w h img).width = w ∧ (applyResize false w h img).height = h)
    ∧ (applyResize true w h img).width ≤ w
    ∧ (applyResize true w h img).height ≤ h
    ∧ |((applyResize true w h img).width : Int) * (img.height : Int)
        - ((applyResize true w h img).height : Int) * (img.width : Int)|
        ≤ ((max img.width img.height : Nat) : Int)
    ∧ (img.width ≤ w ∧ img.height ≤ h → applyResize true w h img = img)
    ∧ (¬(img.width ≤ w ∧ img.height ≤ h) →
        (applyResize true w h img).width = w ∨ (applyResize true w h img).height = h) := by
  have happ : applyResize true w h img = thumbnailImg img w h := rfl
  obtain ⟨hd1, hd2⟩ := thumbnailImg_dims img w h
  obtain ⟨s1, s2, s3, s4, s5⟩ := thumbnailSize_spec img.width img.height w h hw hh hw0 hh0
  refine ⟨⟨rfl, rfl⟩, ?_, ?_, ?_, ?_, ?_⟩
  · rw [happ, hd1]; exact s1
  · rw [happ, hd2]; exact s2
  · rw [happ, hd1, hd2]; exact s3
  · intro hfit; rw [happ]; exact thumbnailImg_fit img w h hfit
  · intro hn; rw [happ, hd1, hd2]; exact s5 hn

/-- Witness for the amended C6: the 200×100 image squeezed into a 50×50 box
(the scenario given in the specification, which yields 50×25). -/
theorem c6_resize_amended_witness :
    ((applyResize false 50 50 (Img.mk 200 100 (fun _ _ => 0))).width = 50
      ∧ (applyResize false 50 50 (Img.mk 200 100 (fun _ _ => 0))).height = 50)
    ∧ (applyResize true 50 50 (Img.mk 200 100 (fun _ _ => 0))).width ≤ 50
    ∧ (applyResize true 50 50 (Img.mk 200 100 (fun _ _ => 0))).height ≤ 50
    ∧ |((applyResize true 50 50 (Img.mk 200 100 (fun _ _ => 0))).width : Int)
          * ((Img.mk 200 100 (fun _ _ => 0)).height : Int)
        - ((applyResize true 50 50 (Img.mk 200 100 (fun _ _ => 0))).height : Int)
          * ((Img.mk 200 100 (fun _ _ => 0)).width : Int)|
        ≤ ((max (Img.mk 200 100 (fun _ _ => 0)).width
              (Img.mk 200 100 (fun _ _ => 0)).height : Nat) : Int)
    ∧ ((Img.mk 200 100 (fun _ _ => 0)).width ≤ 50
          ∧ (Img.mk 200 100 (fun _ _ => 0)).height ≤ 50 →
        applyResize true 50 50 (Img.mk 200 100 (fun _ _ => 0))
          = Img.mk 200 100 (fun _ _ => 0))
    ∧ (¬((Img.mk 200 100 (fun _ _ => 0)).width ≤ 50
          ∧ (Img.mk 200 100 (fun _ _ => 0)).height ≤ 50) →
        (applyResize true 50 50 (Img.mk 200 100 (fun _ _ => 0))).width = 50
        ∨ (applyResize true 50 50 (Img.mk 200 100 (fun _ _ => 0))).height = 50) :=
  c6_resize_amended (Img.mk 200 100 (fun _ _ => 0)) 50 50
    (by decide) (by decide) (by decide) (by decide)

end Pillowcase
